import Mathlib

/-!
Verification development for the LLPE shadow-model builder and
tentative-load (memory-interference) analysis.

The definitions below are a shallow embedding of the corresponding C++
source:
  * `src/llvm-3.2.src/lib/Analysis/Integrator/TentativeLoads.cpp`
  * `src/llpe/main/Shadows.cpp`
Interval maps (`llvm::IntervalMap` with half-open info, boolean values)
are modelled as start-sorted lists of disjoint half-open intervals; the
byte-level reading of a map is given by `mapCovers`.
-/

namespace LLPE

/-- A half-open byte interval `[start, stop)` of an allocation, one extent of
the `TLMapTy` interval map. -/
structure TLIv where
  start : Nat
  stop : Nat
deriving DecidableEq, Repr


/-- Model of `TLMapTy`: the per-allocation interval map of known-safe byte ranges,
modelled as a list of extents held in ascending order. -/
abbrev TLMapTy := List TLIv


/-- Byte `b` lies in the extent `iv`. -/
def ivMem (b : Nat) (iv : TLIv) : Bool :=
  decide (iv.start ≤ b) && decide (b < iv.stop)


/-- Byte `b` is covered by (known safe in) the interval map `m`. -/
def mapCovers (m : TLMapTy) (b : Nat) : Bool :=
  m.any (ivMem b)


/-- Well-formedness of an interval-map representation: extents are pairwise
ordered and disjoint (`a.stop ≤ b.start` for `a` before `b`) and each extent
is nonempty.  `llvm::IntervalMap` maintains exactly this shape. -/
def TLWF (m : TLMapTy) : Prop :=
  m.Pairwise (fun a b => a.stop ≤ b.start) ∧ ∀ iv ∈ m, iv.start < iv.stop


instance (m : TLMapTy) : Decidable (TLWF m) := by
  unfold TLWF; infer_instance


/-- Model of `IntervalMap::find(x)`: the map tail beginning at the first extent whose
stop lies strictly beyond `x` (half-open semantics). -/
def tlFind (m : TLMapTy) (x : Nat) : TLMapTy :=
  m.dropWhile (fun iv => decide (iv.stop ≤ x))


/-- Inner loop of `TLMapPointer::mergeStores` (TentativeLoads.cpp:68-80) for
one extent `iv` of `mergeFrom`: walk `mergeTo` from `find(iv.start)` while
`toit.start() < iv.stop`, keeping `[max starts, min stops)`. -/
def mergeOne (iv : TLIv) (mergeTo : TLMapTy) : TLMapTy :=
  ((tlFind mergeTo iv.start).takeWhile (fun t => decide (t.start < iv.stop))).map
    (fun t => ⟨max t.start iv.start, min t.stop iv.stop⟩)


/-- Model of `TLMapPointer::mergeStores` (TentativeLoads.cpp:62-90): intersect the two
known-safe interval sets per byte; the kept ranges replace `mergeTo`. -/
def mergeStores (mergeFrom mergeTo : TLMapTy) : TLMapTy :=
  mergeFrom.flatMap (fun iv => mergeOne iv mergeTo)


/-- Modelled from the spec: `TLMerger::doMerge` (the n-ary merge visitor) is
not part of the sources here; per spec section 4.3 it folds `mergeStores`
over every live predecessor store, accumulating into the first. -/
def mergeMany (first : TLMapTy) (rest : List TLMapTy) : TLMapTy :=
  rest.foldl (fun acc m => mergeStores m acc) first


/-! ### Objects, configuration and the interference store -/
/-- Identity of a memory object as resolved by the value-propagation engine:
a null pointer, a shadow global (by dense index), or a local/heap allocation
(by index). -/
inductive TLObj where
  | nullPtr : TLObj
  | gv : Nat → TLObj
  | alloc : Nat → TLObj
deriving DecidableEq, Repr


/-- Pass-wide configuration the analysis reads (`GlobalIHP` fields plus the
constancy of shadow globals). -/
structure TLConfig where
  programSingleThreaded : Bool
  constGlobals : List Nat
deriving DecidableEq, Repr


/-- Model of `Ptr.V.isGV() && Ptr.V.u.GV->G->isConstant()`. -/
def isConstGV (cfg : TLConfig) : TLObj → Bool
  | TLObj.gv i => cfg.constGlobals.contains i
  | _ => false


/-- Model of `ImprovedVal::isNullOrConst` for the modelled object kinds. -/
def isNullOrConst (cfg : TLConfig) : TLObj → Bool
  | TLObj.nullPtr => true
  | TLObj.gv i => cfg.constGlobals.contains i
  | TLObj.alloc _ => false


/-- Model of `TLLocalStore`: the per-block interference store — a map from object
identity to its known-safe interval map, plus the `allOthersClobbered`
flag.  Frame structure and reference counts are modelled separately. -/
structure TLLocalStore where
  map : List (TLObj × TLMapTy)
  allOthersClobbered : Bool
deriving DecidableEq, Repr


def lookupStore : List (TLObj × TLMapTy) → TLObj → Option TLMapTy
  | [], _ => none
  | (o, m) :: rest, x => if o = x then some m else lookupStore rest x


/-- Model of `TLLocalStore::getReadableStoreFor`. -/
def getReadableStoreFor (s : TLLocalStore) (o : TLObj) : Option TLMapTy :=
  lookupStore s.map o


def updateAssoc : List (TLObj × TLMapTy) → TLObj → TLMapTy → List (TLObj × TLMapTy)
  | [], x, m => [(x, m)]
  | (o, m0) :: rest, x, m =>
    if o = x then (x, m) :: rest else (o, m0) :: updateAssoc rest x m


/-- Model of `getWritableTLStore` followed by a write-back: replace (or create) the
entry of object `o` (copy-on-write is the identity in a value semantics). -/
def setStoreFor (s : TLLocalStore) (o : TLObj) (m : TLMapTy) : TLLocalStore :=
  { s with map := updateAssoc s.map o m }


/-- Model of `markAllObjectsTentative` (TentativeLoads.cpp:105-111): replace the
store with an empty map and set `allOthersClobbered`. -/
def markAllObjectsTentative (_origStore : TLLocalStore) : TLLocalStore :=
  { map := [], allOthersClobbered := true }


/-- Sorted insertion of one extent.  The ranges `markGoodBytes` inserts are
gaps, disjoint from the existing extents; `IntervalMap::insert` would also
coalesce touching extents, which changes the representation but not the
byte set. -/
def tlInsert (m : TLMapTy) (a b : Nat) : TLMapTy :=
  match m with
  | [] => [⟨a, b⟩]
  | iv :: rest =>
    if a ≤ iv.start then ⟨a, b⟩ :: iv :: rest else iv :: tlInsert rest a b


/-- Gap-collection loop of `markGoodBytes` (TentativeLoads.cpp:172-191):
walk the extents starting below `stop` and record the uncovered gaps. -/
def gapsLoop : TLMapTy → Nat → List (Nat × Nat)
  | [], _ => []
  | iv :: rest, stop =>
    if iv.start < stop then
      (if iv.stop < stop then
        let gapend := match rest with
          | [] => stop
          | nx :: _ => min stop nx.start
        if iv.stop ≠ gapend then [(iv.stop, gapend)] else []
      else []) ++ gapsLoop rest stop
    else []


/-- Range collection of `markGoodBytes` (TentativeLoads.cpp:151-195): the
parts of `[start, stop)` not already recorded as safe. -/
def computeAddRanges (store : Option TLMapTy) (start stop : Nat) :
    List (Nat × Nat) :=
  match store with
  | none => [(start, stop)]
  | some m =>
    match tlFind m start with
    | [] => [(start, stop)]
    | iv :: rest =>
      if stop ≤ iv.start then [(start, stop)]
      else
        (if start < iv.start then [(start, iv.start)] else [])
          ++ gapsLoop (iv :: rest) stop


/-- Model of `markGoodBytes` (TentativeLoads.cpp:113-209).  The pointer argument is
the result of `tryGetUniqueIV` restricted to pointer-base values, `none`
when no unique pointer target is known. -/
def markGoodBytes (cfg : TLConfig) (goodPtr : Option (TLObj × Nat)) (len : Nat)
    (contextEnabled : Bool) (s : TLLocalStore) (off : Nat) : TLLocalStore :=
  if !contextEnabled then s
  else if !s.allOthersClobbered then s
  else
    match goodPtr with
    | none => s
    | some (o, ptrOff) =>
      if isConstGV cfg o then s
      else
        let start := ptrOff + off
        let stop := ptrOff + off + len
        let store := getReadableStoreFor s o
        let addRanges := computeAddRanges store start stop
        if addRanges.isEmpty then s
        else
          setStoreFor s o
            (addRanges.foldl (fun m r => tlInsert m r.1 r.2) (store.getD []))


/-! ### Instructions and classification -/
/-- The pointer operand as seen through `getIVOrSingleVal`: an improved
value set (wholly-unknown-or-not-pointer-base flag, candidate values), or a
single pair (with its pointer-base flag). -/
inductive PtrOpVal where
  | ivSet : Bool → List (TLObj × Nat) → PtrOpVal
  | singleVal : Bool → TLObj × Nat → PtrOpVal
deriving DecidableEq, Repr


/-- Model of `tryGetUniqueIV` restricted to pointer-base values. -/
def ptrOpUnique : PtrOpVal → Option (TLObj × Nat)
  | PtrOpVal.ivSet wun vals =>
    match vals with
    | [v] => if wun then none else some v
    | _ => none
  | PtrOpVal.singleVal isPB v => if isPB then some v else none


/-- The propagated value of the instruction (`SI.i.PB`): a single value set with
its wholly-unknown flag, or a multi set of ranges `(start, stop,
whollyUnknown)`. -/
inductive PBVal where
  | single : Bool → PBVal
  | multiVal : List (Nat × Nat × Bool) → PBVal
deriving DecidableEq, Repr


/-- Modelled from the spec: the tri-state per-instruction classification
(never-check, no-check-needed, must-check).  The `ThreadLocalState` enum
lives in a header that is not among the sources; `std::min` must pick the
more conservative state, so must-check is least. -/
inductive ThreadLocalState where
  | TLS_MUSTCHECK : ThreadLocalState
  | TLS_NOCHECK : ThreadLocalState
  | TLS_NEVERCHECK : ThreadLocalState
deriving DecidableEq, Repr


export ThreadLocalState (TLS_MUSTCHECK TLS_NOCHECK TLS_NEVERCHECK)


def tlsRank : ThreadLocalState → Nat
  | TLS_MUSTCHECK => 0
  | TLS_NOCHECK => 1
  | TLS_NEVERCHECK => 2


/-- Model of `std::min` on `ThreadLocalState`. -/
def tlsMin (a b : ThreadLocalState) : ThreadLocalState :=
  if tlsRank a ≤ tlsRank b then a else b


/-- The instruction kinds walked by the analysis (the subset modelled here);
each constructor carries the already-resolved facts the analysis reads. -/
inductive TLInst where
  | allocaInst : Nat → Nat → TLInst
  | loadInst : Bool → Bool → PtrOpVal → PBVal → Nat → TLInst
  | storeInst : PtrOpVal → Nat → TLInst
  | memsetInst : PtrOpVal → Option Nat → TLInst
  | memTransferInst : PtrOpVal → PtrOpVal → Option Nat →
      List (Nat × Nat × Bool) → TLInst
  | callYield : Bool → Option (List Nat) → TLInst
  | callUnknown : Bool → Option (List Nat) → TLInst
  | otherInst : TLInst
deriving DecidableEq, Repr


/-- Yield-point handling inside `updateTLStore` (TentativeLoads.cpp:
382-416): a pessimistic lock clobbers at specialisation time and needs
nothing here; an explicit lock domain marks exactly its globals wholly
tentative; otherwise everything is clobbered. -/
def yieldClobber (pessimistic : Bool) (lockDomains : Option (List Nat))
    (s : TLLocalStore) : TLLocalStore :=
  if pessimistic then s
  else
    match lockDomains with
    | some gvs => gvs.foldl (fun st i => setStoreFor st (TLObj.gv i) []) s
    | none => markAllObjectsTentative s


/-- Model of `updateTLStore` (TentativeLoads.cpp:302-422) on the modelled
instruction kinds.  `allocaInst idx sz` marks the allocation object itself;
a volatile load that is not known simple is a yield point in a
multi-threaded program; `memTransferInst` marks the copy-to range then the
copy-from range (`walkCopyInst`); a registered yield function always takes
the clobber path while an unknown callee takes it only when the program is
not single-threaded. -/
def updateTLStore (cfg : TLConfig) (si : TLInst) (contextEnabled : Bool)
    (s : TLLocalStore) : TLLocalStore :=
  match si with
  | TLInst.allocaInst idx storeSize =>
    markGoodBytes cfg (some (TLObj.alloc idx, 0)) storeSize contextEnabled s 0
  | TLInst.loadInst vol volSimple ptrOp _ sz =>
    if vol && !cfg.programSingleThreaded && !volSimple then
      markAllObjectsTentative s
    else
      markGoodBytes cfg (ptrOpUnique ptrOp) sz contextEnabled s 0
  | TLInst.storeInst ptrOp sz =>
    markGoodBytes cfg (ptrOpUnique ptrOp) sz contextEnabled s 0
  | TLInst.memsetInst ptrOp len =>
    match len with
    | none => s
    | some n => markGoodBytes cfg (ptrOpUnique ptrOp) n contextEnabled s 0
  | TLInst.memTransferInst arg0 arg1 len _ =>
    match len with
    | none => s
    | some n =>
      markGoodBytes cfg (ptrOpUnique arg0) n contextEnabled
        (markGoodBytes cfg (ptrOpUnique arg1) n contextEnabled s 0) 0
  | TLInst.callYield pess lockDoms => yieldClobber pess lockDoms s
  | TLInst.callUnknown pess lockDoms =>
    if !cfg.programSingleThreaded then yieldClobber pess lockDoms s else s
  | TLInst.otherInst => s


/-- Model of `shouldCheckRead` (TentativeLoads.cpp:424-461). -/
def shouldCheckRead (cfg : TLConfig) (ptrV : TLObj) (ptrOff size : Nat)
    (s : TLLocalStore) : Bool :=
  if ptrV = TLObj.nullPtr then false
  else if isConstGV cfg ptrV then false
  else
    match getReadableStoreFor s ptrV with
    | none => s.allOthersClobbered
    | some m =>
      let coveredByMap :=
        match tlFind m ptrOff with
        | [] => false
        | iv :: _ =>
          decide (iv.start ≤ ptrOff) && decide (ptrOff + size ≤ iv.stop)
      !coveredByMap


/-- Model of `IntegrationAttempt::shouldCheckCopy` (TentativeLoads.cpp:463-498). -/
def shouldCheckCopy (cfg : TLConfig) (ptrOp : PtrOpVal) (len : Option Nat)
    (memcpyValues : List (Nat × Nat × Bool)) (s : TLLocalStore) :
    ThreadLocalState :=
  match len, ptrOpUnique ptrOp with
  | none, _ => TLS_NEVERCHECK
  | some _, none => TLS_NEVERCHECK
  | some n, some (pV, pOff) =>
    if n = 0 then TLS_NEVERCHECK
    else if memcpyValues.isEmpty then TLS_NEVERCHECK
    else if memcpyValues.any
        (fun r => !r.2.2 && shouldCheckRead cfg pV (pOff + r.1) (r.2.1 - r.1) s) then
      TLS_MUSTCHECK
    else TLS_NOCHECK


/-- Model of `IntegrationAttempt::shouldCheckLoadFrom` (TentativeLoads.cpp:500-527). -/
def shouldCheckLoadFrom (cfg : TLConfig) (ptrV : TLObj) (ptrOff loadSize : Nat)
    (pb : PBVal) (s : TLLocalStore) : ThreadLocalState :=
  if isNullOrConst cfg ptrV then TLS_NEVERCHECK
  else
    match pb with
    | PBVal.multiVal rs =>
      if rs.any
          (fun r => !r.2.2 && shouldCheckRead cfg ptrV (ptrOff + r.1) (r.2.1 - r.1) s) then
        TLS_MUSTCHECK
      else TLS_NOCHECK
    | PBVal.single _ =>
      if shouldCheckRead cfg ptrV ptrOff loadSize s then TLS_MUSTCHECK
      else TLS_NOCHECK


/-- Model of `IntegrationAttempt::shouldCheckLoad` (TentativeLoads.cpp:529-587).
Only loads and copy instructions reach it (guard in
`TLAnalyseInstruction`); realloc, the remaining copy kind, is not among the
modelled constructors, so the catch-all is unreachable in the walks below. -/
def shouldCheckLoad (cfg : TLConfig) (si : TLInst) (s : TLLocalStore) :
    ThreadLocalState :=
  if cfg.programSingleThreaded then TLS_NEVERCHECK
  else
    match si with
    | TLInst.loadInst _ _ ptrOp pb loadSize =>
      match pb with
      | PBVal.single true => TLS_NEVERCHECK
      | _ =>
        match ptrOp with
        | PtrOpVal.ivSet wun vals =>
          if wun then TLS_NEVERCHECK
          else
            vals.foldl
              (fun r v =>
                if r = TLS_MUSTCHECK then r
                else tlsMin (shouldCheckLoadFrom cfg v.1 v.2 loadSize pb s) r)
              TLS_NEVERCHECK
        | PtrOpVal.singleVal isPB v =>
          if !isPB then TLS_NEVERCHECK
          else shouldCheckLoadFrom cfg v.1 v.2 loadSize pb s
    | TLInst.memTransferInst _ arg1 len vals => shouldCheckCopy cfg arg1 len vals s
    | _ => TLS_NEVERCHECK


/-! ### The per-instruction walk -/
/-- Per-instruction mutable record (the `ShadowInstruction` fields the walk
touches). -/
structure SIState where
  inst : TLInst
  isThreadLocal : ThreadLocalState
deriving DecidableEq, Repr


/-- Load test plus `ShadowInstruction::isCopyInst` on the modelled kinds. -/
def isLoadOrCopy : TLInst → Bool
  | TLInst.loadInst _ _ _ _ _ => true
  | TLInst.memTransferInst _ _ _ _ => true
  | _ => false


/-- Model of `IntegrationAttempt::TLAnalyseInstruction` (TentativeLoads.cpp:632-654):
returns the updated instruction record, block store, and
`readsTentativeData` flag. -/
def TLAnalyseInstruction (cfg : TLConfig) (commitDisabledHere secondPass : Bool)
    (si : SIState) (s : TLLocalStore) (readsTentativeData : Bool) :
    SIState × TLLocalStore × Bool :=
  if si.isThreadLocal = TLS_NEVERCHECK then
    (si, s, readsTentativeData)
  else if isLoadOrCopy si.inst then
    if secondPass && decide (si.isThreadLocal = TLS_MUSTCHECK) then
      (si, s, readsTentativeData)
    else
      let tl := shouldCheckLoad cfg si.inst s
      ({ si with isThreadLocal := tl },
       updateTLStore cfg si.inst (!commitDisabledHere) s,
       readsTentativeData || decide (tl = TLS_MUSTCHECK))
  else
    (si, updateTLStore cfg si.inst (!commitDisabledHere) s, readsTentativeData)


/-- The per-block inner loop of `findTentativeLoadsInLoop`
(TentativeLoads.cpp:750-775) for straight-line code without call or loop
children. -/
def runInsts (cfg : TLConfig) (commitDisabledHere secondPass : Bool) :
    List SIState → TLLocalStore → Bool → List SIState × TLLocalStore × Bool
  | [], s, rtd => ([], s, rtd)
  | si :: rest, s, rtd =>
    let r1 := TLAnalyseInstruction cfg commitDisabledHere secondPass si s rtd
    let r2 := runInsts cfg commitDisabledHere secondPass rest r1.2.1 r1.2.2
    (r1.1 :: r2.1, r2.2.1, r2.2.2)


/-- A straight-line analysis context: the per-context flags plus one basic
block worth of state. -/
structure TLContext where
  tentativeLoadsRun : Bool
  insts : List SIState
  tlStore : TLLocalStore
  readsTentativeData : Bool
deriving DecidableEq, Repr


/-- Model of `IntegrationAttempt::findTentativeLoadsInLoop` (TentativeLoads.cpp:
683-830) specialised to a single straight-line block: the guard on the
"already run" flag, then the instruction walk. -/
def findTentativeLoadsInLoopLinear (cfg : TLConfig)
    (commitDisabledHere secondPass : Bool) (c : TLContext) : TLContext :=
  if c.tentativeLoadsRun then c
  else
    let r := runInsts cfg commitDisabledHere secondPass c.insts c.tlStore
      c.readsTentativeData
    { c with insts := r.1, tlStore := r.2.1, readsTentativeData := r.2.2 }


/-- Model of `InlineAttempt::findTentativeLoads` (TentativeLoads.cpp:616-630) for
the root main call: the entry block receives a fresh, nothing-clobbered
store before the walk (the run-flag guard sits inside the walk). -/
def findTentativeLoadsRoot (cfg : TLConfig)
    (commitDisabledHere secondPass : Bool) (c : TLContext) : TLContext :=
  findTentativeLoadsInLoopLinear cfg commitDisabledHere secondPass
    { c with tlStore := { map := [], allOthersClobbered := false } }


/-- Model of `llvm::rerunTentativeLoads` (TentativeLoads.cpp:1074-1095): resuming
after a call into a disabled context either clobbers everything (the
context read tentative data it could not check) or restores the backed-up
entry store. -/
def rerunTentativeLoads (readsTentativeData : Bool)
    (backupTlStore : TLLocalStore) : TLLocalStore :=
  if readsTentativeData then { map := [], allOthersClobbered := true }
  else backupTlStore


/-- A byte of object `o` counts as safe in store `s`: everything is safe
until the first clobber; afterwards only the recorded extents are. -/
def byteSafe (s : TLLocalStore) (o : TLObj) (b : Nat) : Bool :=
  !s.allOthersClobbered ||
    (match getReadableStoreFor s o with
     | none => false
     | some m => mapCovers m b)


/-! ### Checkpoint-failed-block marking -/
/-- Instruction facts `addCheckpointFailedBlocks` reads inside a callee
context. -/
structure CPInnerInst where
  requiresCheck : Bool
  special : Bool
deriving DecidableEq, Repr


/-- Instruction facts at the enclosing level: its own check requirement
plus an optional inline child `(isEnabled, callee instructions,
hasFailedReturnPath)`. -/
structure CPOuterInst where
  requiresCheck : Bool
  special : Bool
  child : Option (Bool × List CPInnerInst × Bool)
deriving DecidableEq, Repr


/-- A position marked by `markBlockAndSuccsFailed`, either in the enclosing
context or inside the inline child at the given call. -/
inductive CPMark where
  | outer : Nat → CPMark
  | inner : Nat → Nat → CPMark
deriving DecidableEq, Repr


def addCheckpointFailedBlocksInnerAux (callIdx : Nat) :
    Nat → List CPInnerInst → List CPMark
  | _, [] => []
  | j, si :: rest =>
    (if si.requiresCheck then [CPMark.inner callIdx (j + 1)]
     else if si.special then [CPMark.inner callIdx j]
     else [])
      ++ addCheckpointFailedBlocksInnerAux callIdx (j + 1) rest


def addCheckpointFailedBlocksAux : Nat → List CPOuterInst → List CPMark
  | _, [] => []
  | j, si :: rest =>
    (if si.requiresCheck then [CPMark.outer (j + 1)]
     else if si.special then [CPMark.outer j]
     else
       match si.child with
       | some (en, ci, fr) =>
         if en then
           addCheckpointFailedBlocksInnerAux j 0 ci
             ++ (if fr then [CPMark.outer (j + 1)] else [])
         else []
       | none => [])
      ++ addCheckpointFailedBlocksAux (j + 1) rest


/-- Model of `IntegrationAttempt::addCheckpointFailedBlocks` (TentativeLoads.cpp:
1008-1072) at one level of call nesting: an instruction requiring a runtime
check marks the block tail after it, a special check marks before it, and
an inline child is recursed into only when it is enabled. -/
def addCheckpointFailedBlocks (insts : List CPOuterInst) : List CPMark :=
  addCheckpointFailedBlocksAux 0 insts


/-! ### Concrete straight-line programs used by the scenario claims -/
/-- Multi-threaded configuration with no constant globals. -/
def cfgMT : TLConfig := ⟨false, []⟩


/-- The unique pointer to byte 0 of allocation 0. -/
def ptrX : PtrOpVal := PtrOpVal.singleVal true (TLObj.alloc 0, 0)


def allocaSI : SIState := ⟨TLInst.allocaInst 0 4, TLS_MUSTCHECK⟩

def storeSI : SIState := ⟨TLInst.storeInst ptrX 4, TLS_MUSTCHECK⟩

def loadSI : SIState := ⟨TLInst.loadInst false false ptrX (PBVal.single false) 4,
  TLS_MUSTCHECK⟩

def yieldSI : SIState := ⟨TLInst.callYield false none, TLS_MUSTCHECK⟩


/-- Model of `alloc p; store p, 1; load p` with fresh instruction records. -/
def scenarioNoYield : TLContext :=
  ⟨false, [allocaSI, storeSI, loadSI], ⟨[], false⟩, false⟩


/-- The same function with a registered yield call (no lock domain)
inserted between the store and the load. -/
def scenarioYield : TLContext :=
  ⟨false, [allocaSI, storeSI, yieldSI, loadSI], ⟨[], false⟩, false⟩


/-- A load whose propagated value is wholly unknown (classified
never-check on the first run). -/
def loadUnknownSI : SIState :=
  ⟨TLInst.loadInst false false ptrX (PBVal.single true) 4, TLS_MUSTCHECK⟩


/-- yield; load with unknown value; load again — the program that separates
the first run from a re-run. -/
def rerunCtx : TLContext :=
  ⟨false, [yieldSI, loadUnknownSI, loadSI], ⟨[], false⟩, false⟩


/-- A context whose run flag is still set. -/
def flaggedCtx : TLContext := ⟨true, [loadSI], ⟨[], false⟩, false⟩


/-- Single-threaded configuration. -/
def cfgST : TLConfig := ⟨true, []⟩


/-! ### Unbounded loops -/
/-- Store state threaded by the unbounded-loop driver. -/
structure ULState (σ : Type) where
  preheaderStore : σ
  headerStore : σ
  latchStore : σ


/-- Model of `IntegrationAttempt::findTentativeLoadsInUnboundedLoop`
(TentativeLoads.cpp:656-681).  `body` stands for the recursive call
`findTentativeLoadsInLoop UL commitDisabledHere secondPass latchToHeader`;
the second component logs each pass made, as `(secondPass, latchToHeader)`. -/
def findTentativeLoadsInUnboundedLoop {σ : Type}
    (body : Bool → Bool → Bool → ULState σ → ULState σ)
    (latchEdgeDead commitDisabledHere secondPass : Bool) (s0 : ULState σ) :
    ULState σ × List (Bool × Bool) :=
  let s1 := { s0 with headerStore := s0.preheaderStore }
  if !latchEdgeDead then
    if !secondPass then
      let s2 := body commitDisabledHere false true s1
      let s3 := { s2 with headerStore := s2.latchStore }
      (body commitDisabledHere true false s3, [(false, true), (true, false)])
    else
      (body commitDisabledHere true false s1, [(true, false)])
  else
    (body commitDisabledHere secondPass false s1, [(secondPass, false)])


/-! ### Shadow model building (Shadows.cpp) -/
/-- Per-block facts for the predecessor-order validation: the predecessor
indices of the block in the topological order, and whether the block is
the header of the natural loop containing it. -/
structure BlockPredInfo where
  predIdxs : List Nat
  isHeaderOfScope : Bool
deriving DecidableEq, Repr


/-- Outcome of the predecessor scan: the diagnostics emitted and whether
the builder aborted the analysis. -/
structure PredCheckResult where
  warnings : List (Nat × Nat)
  analysisAborted : Bool
deriving DecidableEq, Repr


def predWarningsAux : Nat → List BlockPredInfo → List (Nat × Nat)
  | _, [] => []
  | i, blk :: rest =>
    blk.predIdxs.filterMap
      (fun p => if i < p ∧ blk.isHeaderOfScope = false then some (i, p) else none)
      ++ predWarningsAux (i + 1) rest


/-- Predecessor-index validation inside
`LLPEAnalysisPass::getFunctionInvarInfo` (Shadows.cpp:297-311): a
predecessor indexed after a block that is not a loop header draws a
diagnostic on the error stream and the loop falls through — the build is
never aborted on this path. -/
def predecessorOrderCheck (blocks : List BlockPredInfo) : PredCheckResult :=
  { warnings := predWarningsAux 0 blocks, analysisAborted := false }


/-- Frame-size computation in `getFunctionInvarInfo` (Shadows.cpp:455-477):
count the contiguous allocas at the start of the entry block; when that
count is zero and the root context exists, rescan the whole function,
ending at the magic value -1 (skip all frame processing) only when no
alloca occurs anywhere.  `entry`/`later` record, per instruction of the
entry block and of the remaining blocks, whether it is an alloca. -/
def computeFrameSize (entry later : List Bool) (rootIA : Bool) : Int :=
  if (entry.takeWhile (fun b => b)).length = 0 ∧ rootIA = true then
    if (entry ++ later).any (fun b => b) then 0 else -1
  else ((entry.takeWhile (fun b => b)).length : Int)


/-! ### Store reference lifecycle -/
/-- Reference and lifetime events on one interference-store object. -/
inductive RefEvent where
  | takeRef : RefEvent
  | dropRef : RefEvent
  | popFrame : RefEvent
  | readStore : RefEvent
deriving DecidableEq, Repr


/-- End-of-block bookkeeping of `findTentativeLoadsInLoop`
(TentativeLoads.cpp:788-828): one reference taken per live successor edge
served, a stack-frame pop when the block has no successors and the
function has a frame, and the own drop of the producing block unless the
terminator is a return. -/
def blockEndEvents (nLiveSuccs : Nat) (hasSuccs framePresent isReturn : Bool) :
    List RefEvent :=
  List.replicate nLiveSuccs RefEvent.takeRef
    ++ (if !hasSuccs && framePresent then [RefEvent.popFrame] else [])
    ++ (if !isReturn then [RefEvent.dropRef] else [])


/-- Modelled from the spec: the consumers of the references taken above
(`TLMerger::doMerge` and the caller-side call merge are not among the
sources).  Per spec section 4.3 each successor merge reads the incoming
store and drops the reference taken for its edge, and the reference a
return retains is read and dropped by the call merge of the caller. -/
def consumerEvents (nLiveSuccs : Nat) (isReturn : Bool) : List RefEvent :=
  (List.replicate nLiveSuccs [RefEvent.readStore, RefEvent.dropRef]).flatten
    ++ (if isReturn then [RefEvent.readStore, RefEvent.dropRef] else [])


/-- The whole lifetime of one store object from the end of its producing
block; the object was created holding one reference, the one held by the creator. -/
def storeLifecycle (nLiveSuccs : Nat) (hasSuccs framePresent isReturn : Bool) :
    List RefEvent :=
  blockEndEvents nLiveSuccs hasSuccs framePresent isReturn
    ++ consumerEvents nLiveSuccs isReturn


/-- No read occurs after the final reference drop. -/
def noReadAfterLastDrop (l : List RefEvent) : Bool :=
  (l.reverse.takeWhile (fun e => decide (e ≠ RefEvent.dropRef))).all
    (fun e => decide (e ≠ RefEvent.readStore))


theorem mem_dropWhile_of_not {α : Type} (p : α → Bool) (l : List α) (x : α)
    (hx : x ∈ l) (hpx : ¬ p x = true) : x ∈ l.dropWhile p := by
  induction l with
  | nil => cases hx
  | cons a as ih =>
    by_cases hpa : p a = true
    · rw [List.dropWhile_cons_of_pos hpa]
      rcases List.mem_cons.mp hx with rfl | hx
      · exact absurd hpa hpx
      · exact ih hx
    · rw [List.dropWhile_cons_of_neg hpa]
      exact hx


theorem mem_takeWhile_of_pairwise {α : Type} {r : α → α → Prop} (p : α → Bool)
    (l : List α) (x : α) (hl : l.Pairwise r) (hx : x ∈ l) (hpx : p x = true)
    (hall : ∀ y ∈ l, r y x → p y = true) : x ∈ l.takeWhile p := by
  induction l with
  | nil => cases hx
  | cons a as ih =>
    rcases List.pairwise_cons.mp hl with ⟨hra, has⟩
    rcases List.mem_cons.mp hx with rfl | hx
    · rw [List.takeWhile_cons_of_pos hpx]
      exact List.mem_cons_self _ _
    · have hpa : p a = true := hall a (List.mem_cons_self _ _) (hra x hx)
      rw [List.takeWhile_cons_of_pos hpa]
      exact List.mem_cons_of_mem _
        (ih has hx (fun y hy hr => hall y (List.mem_cons_of_mem _ hy) hr))


theorem tlFind_sublist (m : TLMapTy) (x : Nat) : (tlFind m x).Sublist m :=
  List.dropWhile_sublist _


theorem takeWhile_sublist_self {α : Type} (p : α → Bool) (l : List α) :
    (l.takeWhile p).Sublist l :=
  List.takeWhile_sublist _


/-- Forward half of extensional correctness: any byte covered by the merge is
covered by both inputs. -/
theorem mergeOne_covers_mp {iv : TLIv} {mergeTo : TLMapTy} {b : Nat}
    (h : mapCovers (mergeOne iv mergeTo) b = true) :
    ivMem b iv = true ∧ mapCovers mergeTo b = true := by
  rcases List.any_eq_true.mp h with ⟨pr, hpr, hb⟩
  rcases List.mem_map.mp hpr with ⟨t, ht, rfl⟩
  have ht2 : t ∈ mergeTo :=
    ((takeWhile_sublist_self _ _).trans (tlFind_sublist _ _)).mem ht
  simp only [ivMem, Bool.and_eq_true, decide_eq_true_eq] at hb
  rcases hb with ⟨h1, h2⟩
  have hts : max t.start iv.start ≤ b := h1
  have htp : b < min t.stop iv.stop := h2
  refine ⟨?_, ?_⟩
  · simp only [ivMem, Bool.and_eq_true, decide_eq_true_eq]
    exact ⟨le_trans (le_max_right _ _) hts, lt_of_lt_of_le htp (min_le_right _ _)⟩
  · refine List.any_eq_true.mpr ⟨t, ht2, ?_⟩
    simp only [ivMem, Bool.and_eq_true, decide_eq_true_eq]
    exact ⟨le_trans (le_max_left _ _) hts, lt_of_lt_of_le htp (min_le_left _ _)⟩


/-- Backward half: a byte lying in `iv` and covered by a well-formed
`mergeTo` is covered by the merge of `iv` against `mergeTo`. -/
theorem mergeOne_covers_mpr {iv : TLIv} {mergeTo : TLMapTy} {b : Nat}
    (hwf : TLWF mergeTo) (hiv : ivMem b iv = true)
    (hto : mapCovers mergeTo b = true) :
    mapCovers (mergeOne iv mergeTo) b = true := by
  rcases List.any_eq_true.mp hto with ⟨t, ht, hbt⟩
  simp only [ivMem, Bool.and_eq_true, decide_eq_true_eq] at hiv hbt
  rcases hiv with ⟨hiv1, hiv2⟩
  rcases hbt with ⟨hbt1, hbt2⟩
  -- t survives the dropWhile of find(iv.start): its stop exceeds iv.start
  have hdrop : t ∈ tlFind mergeTo iv.start := by
    refine mem_dropWhile_of_not _ _ _ ht ?_
    simp only [decide_eq_true_eq]
    omega
  -- the window retains the well-formed ordering
  have hwfw : (tlFind mergeTo iv.start).Pairwise (fun a c => a.stop ≤ c.start) :=
    hwf.1.sublist (tlFind_sublist _ _)
  have hnonempty : ∀ u ∈ tlFind mergeTo iv.start, u.start < u.stop :=
    fun u hu => hwf.2 u ((tlFind_sublist _ _).mem hu)
  -- t is kept by the takeWhile: every window element up to it starts below iv.stop
  have htake : t ∈ (tlFind mergeTo iv.start).takeWhile
      (fun u => decide (u.start < iv.stop)) := by
    refine mem_takeWhile_of_pairwise _ _ _ hwfw hdrop ?_ ?_
    · simp only [decide_eq_true_eq]; omega
    · intro y hy hr
      have hys : y.start < y.stop := hnonempty y hy
      simp only [decide_eq_true_eq]
      omega
  refine List.any_eq_true.mpr ⟨⟨max t.start iv.start, min t.stop iv.stop⟩,
    List.mem_map.mpr ⟨t, htake, rfl⟩, ?_⟩
  simp only [ivMem, Bool.and_eq_true, decide_eq_true_eq]
  constructor
  · exact max_le hbt1 hiv1
  · exact lt_min hbt2 hiv2


/-- Extensional reading of `mergeStores`: per byte, the merged map is exactly
the intersection of the two inputs (the `mergeTo` side in interval-map
shape). -/
theorem mergeStores_covers (mergeFrom mergeTo : TLMapTy) (hwf : TLWF mergeTo)
    (b : Nat) :
    mapCovers (mergeStores mergeFrom mergeTo) b
      = (mapCovers mergeFrom b && mapCovers mergeTo b) := by
  rcases hb : mapCovers mergeFrom b && mapCovers mergeTo b with _ | _
  · -- not covered by both: show the merge misses b
    rw [Bool.eq_false_iff]
    intro hmem
    rcases List.any_eq_true.mp hmem with ⟨pr, hpr, hbpr⟩
    rcases List.mem_flatMap.mp hpr with ⟨iv, hiv, hone⟩
    have := mergeOne_covers_mp (List.any_eq_true.mpr ⟨pr, hone, hbpr⟩)
    rcases this with ⟨h1, h2⟩
    have hfrom : mapCovers mergeFrom b = true := List.any_eq_true.mpr ⟨iv, hiv, h1⟩
    rw [hfrom, h2] at hb
    exact Bool.noConfusion hb
  · rw [Bool.and_eq_true] at hb
    rcases hb with ⟨hfrom, hto⟩
    rcases List.any_eq_true.mp hfrom with ⟨iv, hiv, hbiv⟩
    have := mergeOne_covers_mpr hwf hbiv hto
    rcases List.any_eq_true.mp this with ⟨pr, hpr, hbpr⟩
    exact List.any_eq_true.mpr ⟨pr, List.mem_flatMap.mpr ⟨iv, hiv, hpr⟩, hbpr⟩


theorem dropWhile_head_false {α : Type} {p : α → Bool} {l : List α} {x : α}
    {xs : List α} (h : l.dropWhile p = x :: xs) : p x = false := by
  induction l with
  | nil => simp at h
  | cons a as ih =>
    by_cases hpa : p a = true
    · rw [List.dropWhile_cons_of_pos hpa] at h
      exact ih h
    · rw [List.dropWhile_cons_of_neg hpa] at h
      cases h
      exact Bool.eq_false_iff.mpr hpa


/-- Every extent of the `find` window of a well-formed map stops strictly
beyond the search point. -/
theorem tlFind_stop_gt {m : TLMapTy} (hwf : TLWF m) (x : Nat) :
    ∀ t ∈ tlFind m x, x < t.stop := by
  intro t ht
  rcases hw : tlFind m x with _ | ⟨w0, ws⟩
  · rw [hw] at ht; cases ht
  · have hw0 : w0.stop > x := by
      have := dropWhile_head_false hw
      simp only [decide_eq_false_iff_not, not_le] at this
      exact this
    rw [hw] at ht
    rcases List.mem_cons.mp ht with rfl | ht
    · exact hw0
    · have hpw : (tlFind m x).Pairwise (fun a c => a.stop ≤ c.start) :=
        hwf.1.sublist (tlFind_sublist _ _)
      rw [hw] at hpw
      have hle : w0.stop ≤ t.start := (List.pairwise_cons.mp hpw).1 t ht
      have htne : t.start < t.stop :=
        hwf.2 t ((tlFind_sublist m x).mem (hw ▸ List.mem_cons_of_mem _ ht))
      omega


/-- Every extent produced by `mergeOne` against well-formed inputs is
nonempty. -/
theorem mergeOne_nonempty {iv : TLIv} {mergeTo : TLMapTy}
    (hwfTo : TLWF mergeTo) (hiv : iv.start < iv.stop) :
    ∀ pr ∈ mergeOne iv mergeTo, pr.start < pr.stop := by
  intro pr hpr
  rcases List.mem_map.mp hpr with ⟨t, ht, rfl⟩
  have htw : t ∈ tlFind mergeTo iv.start :=
    (takeWhile_sublist_self _ _).mem ht
  have htlt : t.start < iv.stop := by
    have := List.mem_takeWhile_imp ht
    simpa using this
  have htne : t.start < t.stop := hwfTo.2 t ((tlFind_sublist _ _).mem htw)
  have hstop : iv.start < t.stop := tlFind_stop_gt hwfTo _ t htw
  simp only [lt_min_iff, max_lt_iff] at *
  omega


/-- The produced extents of `mergeOne` keep the ordered-disjoint shape, and
they all live inside `iv`. -/
theorem mergeOne_pairwise {iv : TLIv} {mergeTo : TLMapTy}
    (hwfTo : TLWF mergeTo) :
    (mergeOne iv mergeTo).Pairwise (fun a c => a.stop ≤ c.start) := by
  have hpw : ((tlFind mergeTo iv.start).takeWhile
      (fun t => decide (t.start < iv.stop))).Pairwise
      (fun a c => a.stop ≤ c.start) :=
    (hwfTo.1.sublist (tlFind_sublist _ _)).sublist (takeWhile_sublist_self _ _)
  refine List.Pairwise.map _ ?_ hpw
  intro a c hac
  simp only [min_le_iff, le_max_iff]
  left; left; exact hac


theorem mergeOne_bounds {iv : TLIv} {mergeTo : TLMapTy} :
    ∀ pr ∈ mergeOne iv mergeTo, iv.start ≤ pr.start ∧ pr.stop ≤ iv.stop := by
  intro pr hpr
  rcases List.mem_map.mp hpr with ⟨t, ht, rfl⟩
  exact ⟨le_max_right _ _, min_le_right _ _⟩


/-- Model of `mergeStores` preserves interval-map well-formedness. -/
theorem mergeStores_wf {mergeFrom mergeTo : TLMapTy} (hwfF : TLWF mergeFrom)
    (hwfT : TLWF mergeTo) : TLWF (mergeStores mergeFrom mergeTo) := by
  constructor
  · refine List.pairwise_flatMap.mpr ⟨fun iv _ => mergeOne_pairwise hwfT, ?_⟩
    refine hwfF.1.imp ?_
    intro iv1 iv2 h12 x hx y hy
    have hx2 := mergeOne_bounds x hx
    have hy2 := mergeOne_bounds y hy
    omega
  · intro pr hpr
    rcases List.mem_flatMap.mp hpr with ⟨iv, hiv, hone⟩
    exact mergeOne_nonempty hwfT (hwfF.2 iv hiv) pr hone


theorem mergeMany_cons (first m : TLMapTy) (rest : List TLMapTy) :
    mergeMany first (m :: rest) = mergeMany (mergeStores m first) rest := rfl


theorem mergeMany_wf {first : TLMapTy} {rest : List TLMapTy}
    (h1 : TLWF first) (hr : ∀ m ∈ rest, TLWF m) : TLWF (mergeMany first rest) := by
  induction rest generalizing first with
  | nil => exact h1
  | cons m rest ih =>
    rw [mergeMany_cons]
    exact ih (mergeStores_wf (hr m (List.mem_cons_self _ _)) h1)
      (fun x hx => hr x (List.mem_cons_of_mem _ hx))


/-- Byte-level reading of the n-ary merge: a byte is safe after merging all
predecessors exactly when it is safe in every one of them. -/
theorem mergeMany_covers {first : TLMapTy} {rest : List TLMapTy}
    (h1 : TLWF first) (hr : ∀ m ∈ rest, TLWF m) (b : Nat) :
    mapCovers (mergeMany first rest) b
      = (mapCovers first b && rest.all (fun m => mapCovers m b)) := by
  induction rest generalizing first with
  | nil => simp [mergeMany]
  | cons m rest ih =>
    rw [mergeMany_cons,
      ih (mergeStores_wf (hr m (List.mem_cons_self _ _)) h1)
        (fun x hx => hr x (List.mem_cons_of_mem _ hx)),
      mergeStores_covers _ _ h1 b, List.all_cons]
    cases mapCovers m b <;> cases mapCovers first b <;> simp


/-- Claim C1: merging interference stores at a control-flow join computes the
per-byte intersection of the known-safe interval sets of the predecessors — a byte
is in the merged set iff it is in every merged predecessor — and the merge is
associative and independent of the iteration order over any number of
predecessors. -/
theorem mergeStores_intersection_assoc_comm :
    (∀ A B, TLWF B → ∀ b,
        mapCovers (mergeStores A B) b = (mapCovers A b && mapCovers B b))
    ∧ (∀ A B C, TLWF B → TLWF C → ∀ b,
        mapCovers (mergeStores (mergeStores A B) C) b
          = mapCovers (mergeStores A (mergeStores B C)) b)
    ∧ (∀ first rest restPerm, TLWF first → (∀ m ∈ rest, TLWF m) →
        rest.Perm restPerm → ∀ b,
        mapCovers (mergeMany first rest) b
          = mapCovers (mergeMany first restPerm) b) := by
  refine ⟨fun A B hB b => mergeStores_covers A B hB b, ?_, ?_⟩
  · intro A B C hB hC b
    rw [mergeStores_covers _ _ hC, mergeStores_covers _ _ hB,
      mergeStores_covers _ _ (mergeStores_wf hB hC),
      mergeStores_covers _ _ hC, Bool.and_assoc]
  · intro first rest restPerm h1 hr hperm b
    have hr2 : ∀ m ∈ restPerm, TLWF m := fun m hm => hr m (hperm.mem_iff.mpr hm)
    rw [mergeMany_covers h1 hr b, mergeMany_covers h1 hr2 b]
    have hall : rest.all (fun m => mapCovers m b)
        = restPerm.all (fun m => mapCovers m b) := by
      cases ha : restPerm.all (fun m => mapCovers m b) with
      | true =>
        rw [List.all_eq_true] at ha ⊢
        exact fun x hx => ha x (hperm.mem_iff.mp hx)
      | false =>
        rw [Bool.eq_false_iff] at ha ⊢
        intro hc
        apply ha
        rw [List.all_eq_true] at hc ⊢
        exact fun x hx => hc x (hperm.mem_iff.mpr hx)
    rw [hall]


/-- Witness for C1 at concrete maps. -/
theorem mergeStores_intersection_witness :
    TLWF [TLIv.mk 2 6] ∧
      mapCovers (mergeStores [TLIv.mk 0 4] [TLIv.mk 2 6]) 3
        = (mapCovers [TLIv.mk 0 4] 3 && mapCovers [TLIv.mk 2 6] 3) :=
  ⟨by decide,
   mergeStores_intersection_assoc_comm.1 [TLIv.mk 0 4] [TLIv.mk 2 6] (by decide) 3⟩


/-- Claim C2: in the straight-line alloc-store-load function with no yield
point the load is classified no-check-needed; inserting a registered yield
call with no lock domain between store and load replaces the interference
store by an empty all-clobbered store before the load, and the load is
classified must-check. -/
theorem straightline_yield_scenarios :
    ((findTentativeLoadsRoot cfgMT false false scenarioNoYield).insts.map
        (fun si => si.isThreadLocal)
      = [TLS_MUSTCHECK, TLS_MUSTCHECK, TLS_NOCHECK])
    ∧ ((runInsts cfgMT false false [allocaSI, storeSI, yieldSI]
          ⟨[], false⟩ false).2.1
        = ⟨[], true⟩)
    ∧ ((findTentativeLoadsRoot cfgMT false false scenarioYield).insts.map
        (fun si => si.isThreadLocal)
      = [TLS_MUSTCHECK, TLS_MUSTCHECK, TLS_MUSTCHECK, TLS_MUSTCHECK]) := by
  refine ⟨by decide, by decide, by decide⟩


/-- Claim C3: during the second analysis pass an already-established
must-check classification on a load or copy is left untouched — the early
return skips both the reclassification and the store update. -/
theorem secondPass_no_downgrade (cfg : TLConfig) (cd : Bool) (si : SIState)
    (s : TLLocalStore) (rtd : Bool) (h1 : isLoadOrCopy si.inst = true)
    (h2 : si.isThreadLocal = TLS_MUSTCHECK) :
    TLAnalyseInstruction cfg cd true si s rtd = (si, s, rtd) := by
  simp [TLAnalyseInstruction, h1, h2]


/-- Witness for C3 at a concrete load already classified must-check. -/
theorem secondPass_no_downgrade_witness :
    isLoadOrCopy loadSI.inst = true ∧ loadSI.isThreadLocal = TLS_MUSTCHECK ∧
      TLAnalyseInstruction cfgMT false true loadSI ⟨[], true⟩ false
        = (loadSI, ⟨[], true⟩, false) :=
  ⟨by decide, by decide,
   secondPass_no_downgrade cfgMT false loadSI ⟨[], true⟩ false (by decide) (by decide)⟩


/-- Counterexample to claim C4 as stated: with the run flag clear in both
runs and identical external inputs, the second run classifies the final
load must-check although the first run classified it no-check-needed — the
never-check result of the middle load makes the re-run skip its store
update. -/
theorem rerun_not_identical_counterexample :
    ((findTentativeLoadsRoot cfgMT false false rerunCtx).insts.map
        (fun si => si.isThreadLocal)
      = [TLS_MUSTCHECK, TLS_NEVERCHECK, TLS_NOCHECK])
    ∧ ((findTentativeLoadsRoot cfgMT false false
          (findTentativeLoadsRoot cfgMT false false rerunCtx)).insts.map
        (fun si => si.isThreadLocal)
      = [TLS_MUSTCHECK, TLS_NEVERCHECK, TLS_MUSTCHECK]) := by
  refine ⟨by decide, by decide⟩


theorem TLAnalyseInstruction_rtd_indep (cfg : TLConfig) (cd sp : Bool)
    (si : SIState) (s : TLLocalStore) (rtd rtd2 : Bool) :
    (TLAnalyseInstruction cfg cd sp si s rtd).1
        = (TLAnalyseInstruction cfg cd sp si s rtd2).1
      ∧ (TLAnalyseInstruction cfg cd sp si s rtd).2.1
        = (TLAnalyseInstruction cfg cd sp si s rtd2).2.1 := by
  unfold TLAnalyseInstruction
  by_cases h1 : si.isThreadLocal = TLS_NEVERCHECK <;>
    by_cases h2 : isLoadOrCopy si.inst = true <;>
      by_cases h3 : (sp && decide (si.isThreadLocal = TLS_MUSTCHECK)) = true <;>
        simp [h1, h2, h3]


theorem runInsts_state_indep (cfg : TLConfig) (cd sp : Bool) :
    ∀ (insts : List SIState) (s : TLLocalStore) (rtd rtd2 : Bool),
      (runInsts cfg cd sp insts s rtd).1 = (runInsts cfg cd sp insts s rtd2).1 := by
  intro insts
  induction insts with
  | nil => intro s rtd rtd2; rfl
  | cons si rest ih =>
    intro s rtd rtd2
    have h := TLAnalyseInstruction_rtd_indep cfg cd sp si s rtd rtd2
    simp only [runInsts, h.1, h.2]
    rw [ih _ (TLAnalyseInstruction cfg cd sp si s rtd).2.2
        (TLAnalyseInstruction cfg cd sp si s rtd2).2.2]


/-- Claim C4 (amended): re-running the walk on a context whose run flag is
still set is a no-op, and — determinism — re-running on identical inputs,
meaning the same program with the same per-instruction classification
state, yields identical classifications, whatever the incoming stores and
tentative-data flags were. -/
theorem rerun_noop_and_deterministic :
    (∀ (cfg : TLConfig) (cd sp : Bool) (c : TLContext),
        c.tentativeLoadsRun = true →
        findTentativeLoadsInLoopLinear cfg cd sp c = c)
    ∧ (∀ (cfg : TLConfig) (cd sp : Bool) (c c2 : TLContext),
        c.tentativeLoadsRun = false → c2.tentativeLoadsRun = false →
        c.insts = c2.insts →
        (findTentativeLoadsRoot cfg cd sp c).insts
          = (findTentativeLoadsRoot cfg cd sp c2).insts) := by
  constructor
  · intro cfg cd sp c h
    simp [findTentativeLoadsInLoopLinear, h]
  · intro cfg cd sp c c2 h1 h2 hinsts
    simp only [findTentativeLoadsRoot, findTentativeLoadsInLoopLinear, h1, h2,
      if_false, Bool.false_eq_true, hinsts]
    exact runInsts_state_indep cfg cd sp c2.insts _ c.readsTentativeData
      c2.readsTentativeData


/-- Witness for the amended C4 at a concrete flagged context. -/
theorem rerun_noop_witness :
    flaggedCtx.tentativeLoadsRun = true ∧
      findTentativeLoadsInLoopLinear cfgMT false false flaggedCtx = flaggedCtx :=
  ⟨rfl, rerun_noop_and_deterministic.1 cfgMT false false flaggedCtx rfl⟩


theorem lookupStore_updateAssoc (l : List (TLObj × TLMapTy)) (x y : TLObj)
    (m : TLMapTy) :
    lookupStore (updateAssoc l x m) y
      = if x = y then some m else lookupStore l y := by
  induction l with
  | nil => rfl
  | cons p rest ih =>
    rcases p with ⟨o, m0⟩
    simp only [updateAssoc]
    by_cases ho : o = x
    · rw [if_pos ho, lookupStore, lookupStore]
      by_cases hy : x = y
      · rw [if_pos hy, if_pos hy]
      · rw [if_neg hy, if_neg hy, if_neg (fun hoy : o = y => hy (ho.symm.trans hoy))]
    · rw [if_neg ho, lookupStore, lookupStore, ih]
      by_cases hy : o = y
      · rw [if_pos hy, if_pos hy,
          if_neg (fun hxy : x = y => ho (hy.trans hxy.symm))]
      · rw [if_neg hy, if_neg hy]


theorem setStoreFor_clobbered (s : TLLocalStore) (o : TLObj) (m : TLMapTy) :
    (setStoreFor s o m).allOthersClobbered = s.allOthersClobbered := rfl


theorem getReadableStoreFor_setStoreFor (s : TLLocalStore) (o2 : TLObj)
    (m : TLMapTy) (o : TLObj) :
    getReadableStoreFor (setStoreFor s o2 m) o
      = if o2 = o then some m else getReadableStoreFor s o :=
  lookupStore_updateAssoc s.map o2 o m


theorem byteSafe_setStoreFor_empty (s : TLLocalStore) (o2 o : TLObj) (b : Nat)
    (h : byteSafe (setStoreFor s o2 []) o b = true) : byteSafe s o b = true := by
  unfold byteSafe at h ⊢
  rw [setStoreFor_clobbered, getReadableStoreFor_setStoreFor] at h
  by_cases ho : o2 = o
  · rw [if_pos ho] at h
    rcases hclob : s.allOthersClobbered with _ | _
    · rfl
    · rw [hclob] at h
      simp [mapCovers] at h
  · rwa [if_neg ho] at h


theorem byteSafe_clearDomains (gvs : List Nat) :
    ∀ (s : TLLocalStore) (o : TLObj) (b : Nat),
      byteSafe (gvs.foldl (fun st i => setStoreFor st (TLObj.gv i) []) s) o b = true →
      byteSafe s o b = true := by
  induction gvs with
  | nil => intro s o b h; exact h
  | cons g rest ih =>
    intro s o b h
    exact byteSafe_setStoreFor_empty _ _ _ _ (ih _ _ _ h)


theorem markGoodBytes_disabled (cfg : TLConfig) (p : Option (TLObj × Nat))
    (len : Nat) (s : TLLocalStore) (off : Nat) :
    markGoodBytes cfg p len false s off = s := by
  simp [markGoodBytes]


theorem byteSafe_markAll (s : TLLocalStore) (o : TLObj) (b : Nat) :
    byteSafe (markAllObjectsTentative s) o b = false := rfl


theorem addCheckpointFailedBlocksAux_outer_only (insts : List CPOuterInst)
    (hdis : ∀ si ∈ insts, ∀ en ci fr, si.child = some (en, ci, fr) → en = false) :
    ∀ j mk, mk ∈ addCheckpointFailedBlocksAux j insts → ∃ k, mk = CPMark.outer k := by
  induction insts with
  | nil => intro j mk h; cases h
  | cons si rest ih =>
    intro j mk h
    rcases List.mem_append.mp h with h | h
    · by_cases h1 : si.requiresCheck = true
      · rw [addCheckpointFailedBlocksAux] at *
        simp only [h1, if_pos] at h
        rcases List.mem_singleton.mp h with rfl
        exact ⟨j + 1, rfl⟩
      · by_cases h2 : si.special = true
        · simp only [h1, h2, if_neg, if_pos, Bool.false_eq_true] at h
          rcases List.mem_singleton.mp h with rfl
          exact ⟨j, rfl⟩
        · simp only [h1, h2, Bool.false_eq_true, if_neg] at h
          rcases hc : si.child with _ | ⟨⟨en, ci, fr⟩⟩
          · rw [hc] at h; cases h
          · rw [hc] at h
            have hen : en = false :=
              hdis si (List.mem_cons_self _ _) en ci fr hc
            rw [hen] at h
            simp at h
    · exact ih (fun x hx => hdis x (List.mem_cons_of_mem _ hx)) (j + 1) mk h


/-- Claim C5: in a disabled context the walk still processes every
instruction for interference tracking (the store transition is exactly
`updateTLStore` with the context-enabled flag off), no instruction marks
bytes newly known-safe (safety only shrinks), the check-placement marking
never reaches the instructions of a disabled inline child, and a disabled
context found to read tentative data makes the enclosing flow resume on an
empty store with the all-clobbered flag set. -/
theorem disabled_context_conservative :
    (∀ (cfg : TLConfig) (sp : Bool) (si : SIState) (s : TLLocalStore) (rtd : Bool),
        si.isThreadLocal ≠ TLS_NEVERCHECK →
        ¬(sp = true ∧ si.isThreadLocal = TLS_MUSTCHECK) →
        (TLAnalyseInstruction cfg true sp si s rtd).2.1
          = updateTLStore cfg si.inst false s)
    ∧ (∀ (cfg : TLConfig) (si : TLInst) (s : TLLocalStore) (o : TLObj) (b : Nat),
        byteSafe (updateTLStore cfg si false s) o b = true →
        byteSafe s o b = true)
    ∧ (∀ insts,
        (∀ si ∈ insts, ∀ en ci fr, si.child = some (en, ci, fr) → en = false) →
        ∀ cIdx k, CPMark.inner cIdx k ∉ addCheckpointFailedBlocks insts)
    ∧ (∀ backup, rerunTentativeLoads true backup = ⟨[], true⟩) := by
  refine ⟨?_, ?_, ?_, fun backup => rfl⟩
  · intro cfg sp si s rtd h1 h2
    unfold TLAnalyseInstruction
    rw [if_neg h1]
    by_cases hl : isLoadOrCopy si.inst = true
    · have h3 : (sp && decide (si.isThreadLocal = TLS_MUSTCHECK)) = false := by
        by_cases hsp : sp = true
        · have hd : decide (si.isThreadLocal = TLS_MUSTCHECK) = false :=
            decide_eq_false (fun hm => h2 ⟨hsp, hm⟩)
          rw [hd, Bool.and_false]
        · rw [Bool.eq_false_iff.mpr hsp, Bool.false_and]
      simp [hl, h3]
    · simp [hl]
  · intro cfg si s o b h
    cases si with
    | allocaInst idx sz => rwa [updateTLStore, markGoodBytes_disabled] at h
    | loadInst vol volSimple ptrOp pb sz =>
      rw [updateTLStore] at h
      by_cases hv : (vol && !cfg.programSingleThreaded && !volSimple) = true
      · rw [if_pos hv, byteSafe_markAll] at h
        cases h
      · rw [if_neg hv, markGoodBytes_disabled] at h
        exact h
    | storeInst ptrOp sz => rwa [updateTLStore, markGoodBytes_disabled] at h
    | memsetInst ptrOp len =>
      rcases len with _ | n
      · exact h
      · rwa [updateTLStore, markGoodBytes_disabled] at h
    | memTransferInst arg0 arg1 len vals =>
      rcases len with _ | n
      · exact h
      · rwa [updateTLStore, markGoodBytes_disabled, markGoodBytes_disabled] at h
    | callYield pess lockDoms =>
      rw [updateTLStore, yieldClobber.eq_def] at h
      by_cases hp : pess = true
      · rwa [if_pos hp] at h
      · rw [if_neg hp] at h
        rcases lockDoms with _ | gvs
        · have h2 : byteSafe (markAllObjectsTentative s) o b = true := h
          rw [byteSafe_markAll] at h2
          cases h2
        · have h2 : byteSafe
              (gvs.foldl (fun st i => setStoreFor st (TLObj.gv i) []) s) o b = true := h
          exact byteSafe_clearDomains gvs s o b h2
    | callUnknown pess lockDoms =>
      rw [updateTLStore] at h
      by_cases hst : (!cfg.programSingleThreaded) = true
      · rw [if_pos hst, yieldClobber.eq_def] at h
        by_cases hp : pess = true
        · rwa [if_pos hp] at h
        · rw [if_neg hp] at h
          rcases lockDoms with _ | gvs
          · have h2 : byteSafe (markAllObjectsTentative s) o b = true := h
            rw [byteSafe_markAll] at h2
            cases h2
          · have h2 : byteSafe
                (gvs.foldl (fun st i => setStoreFor st (TLObj.gv i) []) s) o b = true := h
            exact byteSafe_clearDomains gvs s o b h2
      · rwa [if_neg hst] at h
    | otherInst => exact h
  · intro insts hdis cIdx k hmem
    rcases addCheckpointFailedBlocksAux_outer_only insts hdis 0 _ hmem with ⟨j, hj⟩
    cases hj


/-- Witness for C5 at a concrete disabled-context step and a concrete
disabled child. -/
theorem disabled_context_witness :
    ((⟨TLInst.otherInst, TLS_MUSTCHECK⟩ : SIState).isThreadLocal ≠ TLS_NEVERCHECK)
    ∧ (TLAnalyseInstruction cfgMT true false ⟨TLInst.otherInst, TLS_MUSTCHECK⟩
          ⟨[], true⟩ false).2.1
        = updateTLStore cfgMT TLInst.otherInst false ⟨[], true⟩
    ∧ CPMark.inner 0 1 ∉
        addCheckpointFailedBlocks [⟨false, false, some (false, [⟨true, false⟩], false)⟩] := by
  refine ⟨by decide, ?_, ?_⟩
  · exact disabled_context_conservative.1 cfgMT false ⟨TLInst.otherInst, TLS_MUSTCHECK⟩
      ⟨[], true⟩ false (by decide) (by simp)
  · exact disabled_context_conservative.2.2.1
      [⟨false, false, some (false, [⟨true, false⟩], false)⟩]
      (by intro si hsi en ci fr hc
          rcases List.mem_singleton.mp hsi with rfl
          cases hc
          rfl) 0 1


/-- Claim C10: with the program declared single-threaded, classification
returns never-check for every instruction and store, and a full first-pass
walk leaves every load and copy classified never-check and requests no
checks (the reads-tentative-data flag is untouched). -/
theorem singleThreaded_never_check :
    (∀ (cfg : TLConfig), cfg.programSingleThreaded = true →
      ∀ (si : TLInst) (s : TLLocalStore), shouldCheckLoad cfg si s = TLS_NEVERCHECK)
    ∧ (∀ (cfg : TLConfig), cfg.programSingleThreaded = true →
      ∀ (cd : Bool) (c : TLContext), c.tentativeLoadsRun = false →
        (∀ si ∈ (findTentativeLoadsInLoopLinear cfg cd false c).insts,
            isLoadOrCopy si.inst = true → si.isThreadLocal = TLS_NEVERCHECK)
        ∧ (findTentativeLoadsInLoopLinear cfg cd false c).readsTentativeData
            = c.readsTentativeData) := by
  have hcheck : ∀ (cfg : TLConfig), cfg.programSingleThreaded = true →
      ∀ (si : TLInst) (s : TLLocalStore), shouldCheckLoad cfg si s = TLS_NEVERCHECK := by
    intro cfg h si s
    unfold shouldCheckLoad
    rw [h]
    rfl
  refine ⟨hcheck, ?_⟩
  intro cfg h cd c hflag
  have hstep : ∀ (si : SIState) (s : TLLocalStore) (rtd : Bool),
      ((TLAnalyseInstruction cfg cd false si s rtd).1.isThreadLocal = TLS_NEVERCHECK
        ∨ isLoadOrCopy (TLAnalyseInstruction cfg cd false si s rtd).1.inst = false)
      ∧ (TLAnalyseInstruction cfg cd false si s rtd).2.2 = rtd := by
    intro si s rtd
    unfold TLAnalyseInstruction
    by_cases h1 : si.isThreadLocal = TLS_NEVERCHECK
    · rw [if_pos h1]
      exact ⟨Or.inl h1, rfl⟩
    · rw [if_neg h1]
      by_cases h2 : isLoadOrCopy si.inst = true
      · rw [if_pos h2,
          if_neg (by simp : ¬((false && decide (si.isThreadLocal = TLS_MUSTCHECK)) = true))]
        constructor
        · exact Or.inl (hcheck cfg h si.inst s)
        · show (rtd || decide (shouldCheckLoad cfg si.inst s = TLS_MUSTCHECK)) = rtd
          rw [hcheck cfg h si.inst s]
          simp
      · rw [if_neg h2]
        exact ⟨Or.inr (Bool.eq_false_iff.mpr h2), rfl⟩
  have hrun : ∀ (insts : List SIState) (s : TLLocalStore) (rtd : Bool),
      (∀ si ∈ (runInsts cfg cd false insts s rtd).1,
          isLoadOrCopy si.inst = true → si.isThreadLocal = TLS_NEVERCHECK)
      ∧ (runInsts cfg cd false insts s rtd).2.2 = rtd := by
    intro insts
    induction insts with
    | nil =>
      intro s rtd
      exact ⟨fun si hsi => absurd hsi (List.not_mem_nil si), rfl⟩
    | cons si rest ih =>
      intro s rtd
      have h1 := hstep si s rtd
      have h2 := ih (TLAnalyseInstruction cfg cd false si s rtd).2.1
        (TLAnalyseInstruction cfg cd false si s rtd).2.2
      constructor
      · intro x hx hload
        rcases List.mem_cons.mp hx with rfl | hx
        · rcases h1.1 with hn | hnot
          · exact hn
          · rw [hload] at hnot; cases hnot
        · exact h2.1 x hx hload
      · show (runInsts cfg cd false rest _ _).2.2 = rtd
        rw [h2.2, h1.2]
  unfold findTentativeLoadsInLoopLinear
  rw [if_neg (by rw [hflag]; exact Bool.false_ne_true)]
  exact ⟨(hrun c.insts c.tlStore c.readsTentativeData).1,
    (hrun c.insts c.tlStore c.readsTentativeData).2⟩


/-- Witness for C10: the two-load program under a single-threaded
configuration ends with its loads classified never-check. -/
theorem singleThreaded_never_check_witness :
    cfgST.programSingleThreaded = true ∧
      shouldCheckLoad cfgST loadSI.inst ⟨[], true⟩ = TLS_NEVERCHECK ∧
      scenarioYield.tentativeLoadsRun = false ∧
      (∀ si ∈ (findTentativeLoadsInLoopLinear cfgST false false scenarioYield).insts,
          isLoadOrCopy si.inst = true → si.isThreadLocal = TLS_NEVERCHECK) :=
  ⟨rfl, singleThreaded_never_check.1 cfgST rfl loadSI.inst ⟨[], true⟩, rfl,
    (singleThreaded_never_check.2 cfgST rfl false scenarioYield rfl).1⟩


/-- Claim C6: with a live latch-to-header edge, the not-yet-second-pass
entry makes exactly two passes — the first with latch-to-header routing
(withholding exit blocks), after giving the header the preheader store, and
feeding the latch store of that pass back to the header for the second
pass — never an iterated fixed point (no entry makes more than two
passes); a dead latch edge gives a single pass. -/
theorem unbounded_loop_two_passes {σ : Type}
    (body : Bool → Bool → Bool → ULState σ → ULState σ)
    (latchEdgeDead commitDisabledHere secondPass : Bool) (s0 : ULState σ) :
    ((findTentativeLoadsInUnboundedLoop body latchEdgeDead commitDisabledHere
        secondPass s0).2.length ≤ 2)
    ∧ (latchEdgeDead = false → secondPass = false →
        findTentativeLoadsInUnboundedLoop body latchEdgeDead commitDisabledHere
            secondPass s0
          = (body commitDisabledHere true false
              { body commitDisabledHere false true
                  { s0 with headerStore := s0.preheaderStore } with
                headerStore :=
                  (body commitDisabledHere false true
                    { s0 with headerStore := s0.preheaderStore }).latchStore },
             [(false, true), (true, false)]))
    ∧ (latchEdgeDead = true →
        (findTentativeLoadsInUnboundedLoop body latchEdgeDead commitDisabledHere
            secondPass s0).2 = [(secondPass, false)]) := by
  refine ⟨?_, ?_, ?_⟩
  · unfold findTentativeLoadsInUnboundedLoop
    rcases latchEdgeDead with _ | _ <;> rcases secondPass with _ | _ <;> simp
  · intro h1 h2
    subst h1; subst h2
    rfl
  · intro h1
    subst h1
    rfl


/-- Witness for C6 at a concrete dead-latch instance. -/
theorem unbounded_loop_two_passes_witness :
    (findTentativeLoadsInUnboundedLoop (fun _ _ _ (st : ULState Nat) => st)
        true false false ⟨0, 1, 2⟩).2 = [(false, false)] :=
  (unbounded_loop_two_passes (fun _ _ _ (st : ULState Nat) => st)
    true false false ⟨0, 1, 2⟩).2.2 rfl


/-- Counterexample to claim C7 as stated: block 1 has predecessor 2
(a later topological index) and is not a loop header, yet the builder
emits one warning and does not abort. -/
theorem pred_order_warning_counterexample :
    predecessorOrderCheck [⟨[], false⟩, ⟨[2], false⟩, ⟨[1], false⟩]
      = ⟨[(1, 2)], false⟩ := by decide


theorem predWarningsAux_mem (blocks : List BlockPredInfo) :
    ∀ (j i : Nat) (hi : i < blocks.length) (p : Nat),
      p ∈ (blocks.get ⟨i, hi⟩).predIdxs → j + i < p →
      (blocks.get ⟨i, hi⟩).isHeaderOfScope = false →
      (j + i, p) ∈ predWarningsAux j blocks := by
  induction blocks with
  | nil => intro j i hi; exact absurd hi (by simp)
  | cons blk rest ih =>
    intro j i hi p hp hlt hh
    rw [predWarningsAux]
    rcases i with _ | i2
    · refine List.mem_append.mpr (Or.inl ?_)
      refine List.mem_filterMap.mpr ⟨p, hp, ?_⟩
      rw [if_pos ⟨hlt, hh⟩, Nat.add_zero]
    · refine List.mem_append.mpr (Or.inr ?_)
      have harith : j + (i2 + 1) = (j + 1) + i2 := by omega
      rw [harith]
      rw [harith] at hlt
      exact ih (j + 1) i2 (by exact Nat.lt_of_succ_lt_succ hi) p hp hlt hh


/-- Claim C7 (amended): a predecessor with a numerically greater
topological index at a block that is not the header of its loop draws a
diagnostic warning, and the builder continues — this check never aborts
the analysis. -/
theorem pred_order_warns_and_continues :
    (∀ blocks, (predecessorOrderCheck blocks).analysisAborted = false)
    ∧ (∀ (blocks : List BlockPredInfo) (i : Nat) (hi : i < blocks.length) (p : Nat),
        p ∈ (blocks.get ⟨i, hi⟩).predIdxs → i < p →
        (blocks.get ⟨i, hi⟩).isHeaderOfScope = false →
        (i, p) ∈ (predecessorOrderCheck blocks).warnings) := by
  refine ⟨fun blocks => rfl, ?_⟩
  intro blocks i hi p hp hlt hh
  have h := predWarningsAux_mem blocks 0 i hi p hp (by omega) hh
  simpa using h


/-- Witness for the amended C7 at the concrete violating graph. -/
theorem pred_order_witness :
    (1, 2) ∈ (predecessorOrderCheck
      [⟨[], false⟩, ⟨[2], false⟩, ⟨[1], false⟩]).warnings :=
  pred_order_warns_and_continues.2
    [⟨[], false⟩, ⟨[2], false⟩, ⟨[1], false⟩] 1 (by decide) 2 (by decide)
    (by decide) (by decide)


/-- Counterexample to claim C8 as stated: the entry block starts with a
non-alloca followed by an alloca, so the leading count is zero and an
alloca exists elsewhere — and the stored frame size is literal zero, not a
sentinel distinct from zero. -/
theorem frameSize_zero_counterexample :
    ((([false, true] : List Bool).takeWhile (fun b => b)).length = 0)
    ∧ (([false, true] ++ ([] : List Bool)).any (fun b => b) = true)
    ∧ computeFrameSize [false, true] [] true = 0 := by decide


/-- Claim C8 (amended): the frame size is the count of contiguous leading
allocas of the entry block; the sentinel -1 — meaning the function never
allocates and frame processing is skipped — is stored exactly when that
count is zero, the root context exists, and no alloca occurs anywhere in
the function; in every other case the stored value is the leading count
itself, zero included. -/
theorem frameSize_sentinel_rule (entry later : List Bool) (rootIA : Bool) :
    (computeFrameSize entry later rootIA = -1 ↔
      ((entry.takeWhile (fun b => b)).length = 0 ∧ rootIA = true
        ∧ (entry ++ later).any (fun b => b) = false))
    ∧ (computeFrameSize entry later rootIA ≠ -1 →
        computeFrameSize entry later rootIA
          = ((entry.takeWhile (fun b => b)).length : Int)) := by
  unfold computeFrameSize
  by_cases h1 : (entry.takeWhile (fun b => b)).length = 0 ∧ rootIA = true
  · rw [if_pos h1]
    by_cases h2 : (entry ++ later).any (fun b => b) = true
    · rw [if_pos h2]
      refine ⟨⟨fun h => absurd h (by omega), fun h => ?_⟩, fun _ => ?_⟩
      · rw [h.2.2] at h2; cases h2
      · simp [h1.1]
    · rw [if_neg h2]
      exact ⟨⟨fun _ => ⟨h1.1, h1.2, Bool.eq_false_iff.mpr h2⟩, fun _ => rfl⟩,
        fun h => absurd rfl h⟩
  · rw [if_neg h1]
    refine ⟨⟨fun h => ?_, fun h => ?_⟩, fun _ => rfl⟩
    · exact absurd h (by omega)
    · exact absurd ⟨h.1, h.2.1⟩ h1


/-- Witness for the amended C8 at a concrete entry block. -/
theorem frameSize_sentinel_witness :
    computeFrameSize [true, true, false] [] true ≠ -1 ∧
      computeFrameSize [true, true, false] [] true
        = ((([true, true, false] : List Bool).takeWhile (fun b => b)).length : Int) :=
  ⟨by decide, (frameSize_sentinel_rule [true, true, false] [] true).2 (by decide)⟩


theorem count_pair_drop (n : Nat) :
    ((List.replicate n [RefEvent.readStore, RefEvent.dropRef]).flatten).count
      RefEvent.dropRef = n := by
  induction n with
  | zero => rfl
  | succ k ih =>
    rw [List.replicate_succ, List.flatten_cons, List.count_append, ih]
    show 1 + k = k + 1
    omega


theorem count_pair_take (n : Nat) :
    ((List.replicate n [RefEvent.readStore, RefEvent.dropRef]).flatten).count
      RefEvent.takeRef = 0 := by
  induction n with
  | zero => rfl
  | succ k ih =>
    rw [List.replicate_succ, List.flatten_cons, List.count_append, ih]
    decide


theorem flatten_pair_getLast (n : Nat) :
    ((List.replicate (n + 1) [RefEvent.readStore, RefEvent.dropRef]).flatten).getLast?
      = some RefEvent.dropRef := by
  induction n with
  | zero => rfl
  | succ k ih =>
    rw [List.replicate_succ, List.flatten_cons, List.getLast?_append, ih]
    rfl


theorem noRead_of_getLast {l : List RefEvent}
    (h : l.getLast? = some RefEvent.dropRef) : noReadAfterLastDrop l = true := by
  unfold noReadAfterLastDrop
  rcases hr : l.reverse with _ | ⟨a, rest⟩
  · rfl
  · have h2 : l.reverse.head? = some RefEvent.dropRef := by
      rw [List.head?_reverse]; exact h
    rw [hr] at h2
    injection h2 with ha
    subst ha
    rw [List.takeWhile_cons_of_neg (by simp)]
    rfl


theorem storeLifecycle_getLast (n : Nat) (hasSuccs framePresent isReturn : Bool) :
    (storeLifecycle n hasSuccs framePresent isReturn).getLast?
      = some RefEvent.dropRef := by
  unfold storeLifecycle consumerEvents
  rcases isReturn with _ | _
  · rcases n with _ | k
    · rw [List.getLast?_append]
      have hb : (blockEndEvents 0 hasSuccs framePresent false).getLast?
          = some RefEvent.dropRef := by
        unfold blockEndEvents
        rw [List.getLast?_append, List.getLast?_append]
        rfl
      rw [hb]
      rfl
    · rw [List.getLast?_append, List.getLast?_append, flatten_pair_getLast]
      rfl
  · rw [List.getLast?_append, List.getLast?_append]
    rfl


/-- Claim C9: over the lifetime of a store object the references taken
(one per live successor served, plus the one held by the creator) equal the
references dropped; no read happens after the final drop; a successor-less
block (with a frame) pops the stack frame before its final drop; and a
return block drops nothing itself — its reference is retained for the merge
in the caller. -/
theorem store_reference_balance (n : Nat) (hasSuccs framePresent isReturn : Bool)
    (hn : hasSuccs = false → n = 0) :
    ((storeLifecycle n hasSuccs framePresent isReturn).count RefEvent.takeRef + 1
      = (storeLifecycle n hasSuccs framePresent isReturn).count RefEvent.dropRef)
    ∧ noReadAfterLastDrop (storeLifecycle n hasSuccs framePresent isReturn) = true
    ∧ (hasSuccs = false → framePresent = true → isReturn = false →
        blockEndEvents n hasSuccs framePresent isReturn
          = [RefEvent.popFrame, RefEvent.dropRef])
    ∧ (isReturn = true →
        (blockEndEvents n hasSuccs framePresent isReturn).count RefEvent.dropRef = 0) := by
  refine ⟨?_, noRead_of_getLast (storeLifecycle_getLast n hasSuccs framePresent isReturn),
    ?_, ?_⟩
  · rcases isReturn with _ | _ <;>
      rcases hasSuccs with _ | _ <;>
        rcases framePresent with _ | _ <;>
          simp [storeLifecycle, blockEndEvents, consumerEvents, List.count_append,
            count_pair_drop, count_pair_take, List.count_replicate_self,
            List.count_replicate, List.count_cons, List.count_nil]
  · intro hs hf hr
    have hn0 : n = 0 := hn hs
    subst hn0; subst hs; subst hf; subst hr
    rfl
  · intro hr
    subst hr
    rcases hasSuccs with _ | _ <;>
      rcases framePresent with _ | _ <;>
        simp [blockEndEvents, List.count_append, List.count_replicate,
          List.count_cons, List.count_nil]


/-- Witness for C9 at a concrete block with two live successors. -/
theorem store_reference_balance_witness :
    ((storeLifecycle 2 true false false).count RefEvent.takeRef + 1
      = (storeLifecycle 2 true false false).count RefEvent.dropRef)
    ∧ noReadAfterLastDrop (storeLifecycle 2 true false false) = true :=
  ⟨(store_reference_balance 2 true false false (by decide)).1,
   (store_reference_balance 2 true false false (by decide)).2.1⟩


end LLPE


